import Mathlib

set_option autoImplicit false

namespace Waterline

/-- A model of a JavaScript runtime value, as used by the stage-1/stage-2
query dictionaries and the row cache.  Numbers are modelled as integers
(all numbers the forge manipulates, e.g. the `limit` default, are integral);
functions are opaque and identified by a tag. -/
inductive JVal where
  | undef : JVal
  | null : JVal
  | bool : Bool → JVal
  | num : Int → JVal
  | str : String → JVal
  | arr : List JVal → JVal
  | obj : List (String × JVal) → JVal
  | func : Nat → JVal
deriving Repr

namespace JVal

/-- Lookup of a key in a field list (JS objects have unique keys; the first
match is the binding). -/
def getF : List (String × JVal) → String → JVal
  | [], _ => .undef
  | p :: t, k => if p.1 = k then p.2 else getF t k

/-- Write of a key in a field list: an existing key keeps its position and
gets the new value; a fresh key is appended (JS assignment order). -/
def setF : List (String × JVal) → String → JVal → List (String × JVal)
  | [], k, v => [(k, v)]
  | p :: t, k, v => if p.1 = k then (k, v) :: t else p :: setF t k v

/-- Property lookup on an object value (`v[k]`); yields `undefined` when the
key is absent or the value is not an object, mirroring JS property access on
dictionaries. -/
def get (v : JVal) (k : String) : JVal :=
  match v with
  | .obj fields => getF fields k
  | _ => (.undef)

/-- lodash `_.isObject` restricted to plain dictionaries: the source always
pairs `_.isObject(x)` with `!_.isArray(x) && !_.isFunction(x)`. -/
def isDict (v : JVal) : Bool :=
  match v with
  | .obj _ => true
  | _ => false

def isArr (v : JVal) : Bool :=
  match v with
  | .arr _ => true
  | _ => false

def isStr (v : JVal) : Bool :=
  match v with
  | .str _ => true
  | _ => false

def isFn (v : JVal) : Bool :=
  match v with
  | .func _ => true
  | _ => false

def isUndef (v : JVal) : Bool :=
  match v with
  | .undef => true
  | _ => false

/-- JS strict equality `===` on primitive values.  Object/array/function
operands compare by reference in JS; distinct values in a pure model are
taken as unequal (join keys and criteria members are primitives by the
row-cache and criteria contracts). -/
def jsEq (a b : JVal) : Bool :=
  match a, b with
  | .undef, .undef => true
  | .null, .null => true
  | .bool x, .bool y => x = y
  | .num x, .num y => x = y
  | .str x, .str y => x = y
  | _, _ => false

/-- Strict-equality test against a string literal (`v === s`). -/
def isStrVal (v : JVal) (s : String) : Bool :=
  match v with
  | .str t => t = s
  | _ => false

/-- `_.isEqual(v, {})`: true exactly for an empty plain dictionary. -/
def isEmptyObj (v : JVal) : Bool :=
  match v with
  | .obj [] => true
  | _ => false

/-- The element list of an array value (`[]` for non-arrays, matching how
lodash collection helpers treat non-arrays as empty in the spots the forge
uses them). -/
def arrL (v : JVal) : List JVal :=
  match v with
  | .arr xs => xs
  | _ => []

/-- `v[0]` on an array value; `undefined` otherwise. -/
def index0 (v : JVal) : JVal :=
  match v with
  | .arr (x :: _) => x
  | _ => (.undef)

/-- `_.contains(v, .str s)` over an array value: strict-equality membership. -/
def containsStr (v : JVal) (s : String) : Bool :=
  (arrL v).any (fun x => isStrVal x s)

/-- Append an element to an array value (JS `push`); non-arrays are left
unchanged (the criteria contract guarantees `select` is an array here). -/
def arrPush (v : JVal) (x : JVal) : JVal :=
  match v with
  | .arr xs => .arr (xs ++ [x])
  | _ => v

/-- The keys of an object value, in insertion order (`_.keys`). -/
def objKeys (v : JVal) : List String :=
  match v with
  | .obj fields => fields.map (fun p => p.1)
  | _ => []

/-- `_.keys(v)[0]`: the first own key of an object value, if any. -/
def firstKey (v : JVal) : Option String :=
  match v with
  | .obj ((k, _) :: _) => some k
  | _ => none

/-- Set a property on an object value: an existing key keeps its position
and gets the new value; a fresh key is appended (JS assignment order). -/
def objSet (v : JVal) (k : String) (x : JVal) : JVal :=
  match v with
  | .obj fields => .obj (setF fields k x)
  | _ => v

/-- Delete a property from an object value (JS `delete`). -/
def objDel (v : JVal) (k : String) : JVal :=
  match v with
  | .obj fields => .obj (fields.filter (fun p => ¬ p.1 = k))
  | _ => v

/-! Constructor-level reduction lemmas for the helpers above, so that simp
can evaluate them without unfolding their definitions on opaque values. -/

@[simp] theorem isUndef_undef : JVal.undef.isUndef = true := rfl
@[simp] theorem isUndef_null : JVal.null.isUndef = false := rfl
@[simp] theorem isUndef_bool (b : Bool) : (JVal.bool b).isUndef = false := rfl
@[simp] theorem isUndef_num (n : Int) : (JVal.num n).isUndef = false := rfl
@[simp] theorem isUndef_str (s : String) : (JVal.str s).isUndef = false := rfl
@[simp] theorem isUndef_arr (xs : List JVal) : (JVal.arr xs).isUndef = false := rfl
@[simp] theorem isUndef_obj (fs : List (String × JVal)) : (JVal.obj fs).isUndef = false := rfl
@[simp] theorem isUndef_func (n : Nat) : (JVal.func n).isUndef = false := rfl

@[simp] theorem isDict_undef : JVal.undef.isDict = false := rfl
@[simp] theorem isDict_null : JVal.null.isDict = false := rfl
@[simp] theorem isDict_bool (b : Bool) : (JVal.bool b).isDict = false := rfl
@[simp] theorem isDict_num (n : Int) : (JVal.num n).isDict = false := rfl
@[simp] theorem isDict_str (s : String) : (JVal.str s).isDict = false := rfl
@[simp] theorem isDict_arr (xs : List JVal) : (JVal.arr xs).isDict = false := rfl
@[simp] theorem isDict_obj (fs : List (String × JVal)) : (JVal.obj fs).isDict = true := rfl
@[simp] theorem isDict_func (n : Nat) : (JVal.func n).isDict = false := rfl

@[simp] theorem isArr_arr (xs : List JVal) : (JVal.arr xs).isArr = true := rfl
@[simp] theorem isArr_obj (fs : List (String × JVal)) : (JVal.obj fs).isArr = false := rfl
@[simp] theorem isArr_undef : JVal.undef.isArr = false := rfl

@[simp] theorem isStr_str (s : String) : (JVal.str s).isStr = true := rfl
@[simp] theorem isStr_obj (fs : List (String × JVal)) : (JVal.obj fs).isStr = false := rfl

@[simp] theorem isFn_func (n : Nat) : (JVal.func n).isFn = true := rfl
@[simp] theorem isFn_num (n : Int) : (JVal.num n).isFn = false := rfl
@[simp] theorem isFn_undef : JVal.undef.isFn = false := rfl

@[simp] theorem arrL_arr (xs : List JVal) : (JVal.arr xs).arrL = xs := rfl
@[simp] theorem arrL_undef : JVal.undef.arrL = [] := rfl

@[simp] theorem index0_arr_cons (x : JVal) (xs : List JVal) :
    (JVal.arr (x :: xs)).index0 = x := rfl
@[simp] theorem index0_arr_nil : (JVal.arr []).index0 = .undef := rfl
@[simp] theorem index0_undef : JVal.undef.index0 = .undef := rfl

@[simp] theorem firstKey_obj_cons (k : String) (v : JVal) (fs : List (String × JVal)) :
    (JVal.obj ((k, v) :: fs)).firstKey = some k := rfl
@[simp] theorem firstKey_obj_nil : (JVal.obj []).firstKey = none := rfl

@[simp] theorem objKeys_obj (fs : List (String × JVal)) :
    (JVal.obj fs).objKeys = fs.map (fun p => p.1) := rfl

@[simp] theorem get_obj (fs : List (String × JVal)) (k : String) :
    (JVal.obj fs).get k = JVal.getF fs k := rfl

@[simp] theorem get_undef (k : String) : JVal.undef.get k = .undef := rfl

@[simp] theorem getF_setF_same (fs : List (String × JVal)) (k : String) (v : JVal) :
    JVal.getF (JVal.setF fs k v) k = v := by
  induction fs with
  | nil => simp [JVal.getF, JVal.setF]
  | cons p t ih => by_cases h : p.1 = k <;> simp [JVal.getF, JVal.setF, h, ih]

@[simp] theorem getF_setF_other (fs : List (String × JVal)) (k k' : String) (v : JVal)
    (h : ¬ k' = k) : JVal.getF (JVal.setF fs k v) k' = JVal.getF fs k' := by
  have h' : ¬ k = k' := fun hh => h hh.symm
  induction fs with
  | nil => simp [JVal.getF, JVal.setF, h']
  | cons p t ih =>
    by_cases h2 : p.1 = k <;> by_cases h3 : p.1 = k' <;>
      simp_all [JVal.getF, JVal.setF]

end JVal

attribute [simp] JVal.getF JVal.setF

/-! ## Ontology and external collaborators -/

/-- An attribute definition resolved from the ontology (`getAttribute`).
Only the fields the forge reads are modelled: the declared `type`, and the
`model` / `collection` association markers. -/
structure AttrDef where
  typ : Option String
  model : Option String
  collection : Option String

/-- A model definition resolved from the ontology (`getModel`).  The forge
only reads its `primaryKey`. -/
structure ModelDef where
  primaryKey : String

/-- JS truthiness of an optional string field (`if (attrDef.model) ...`):
present and non-empty. -/
def sTruthy (s : Option String) : Bool :=
  match s with
  | some t => t ≠ ""
  | none => false

/-- The external collaborators the forge delegates to (ontology accessors
and value normalizers).  The spec treats these as pure functions with
documented contracts; a failure is the `code` string carried by the
exception the helper throws. -/
structure Externals where
  getModel : String → Except String ModelDef
  getAttribute : String → String → Except String AttrDef
  isCapableOfOptimizedPopulate : String → String → Bool
  normalizeCriteria : JVal → String → Bool → Except String JVal
  normalizeNewRecord : JVal → String → Bool → Except String JVal
  normalizeValueToSet : JVal → String → String → Bool → Except String JVal
  normalizePkValues : JVal → Option String → Except String JVal

/-! ## The stage-1/stage-2 query dictionary -/

/-- A stage-1 query: a JS dictionary with string keys (top-level key order
matters for `_.keys`). -/
abbrev Query := List (String × JVal)

/-- Top-level property read on the query. -/
def qGet (q : Query) (k : String) : JVal := JVal.getF q k

/-- Top-level property write on the query (existing keys keep their
position, new keys are appended, as in JS). -/
def qSet (q : Query) (k : String) (v : JVal) : Query := JVal.setF q k v

/-- `_.keys(query)`, in insertion order. -/
def qKeys (q : Query) : List String := q.map (fun p => p.1)

@[simp] theorem qGet_qSet_same (q : Query) (k : String) (v : JVal) :
    qGet (qSet q k v) k = v := JVal.getF_setF_same q k v

@[simp] theorem qGet_qSet_other (q : Query) (k k' : String) (v : JVal) (h : ¬ k' = k) :
    qGet (qSet q k v) k' = qGet q k' := JVal.getF_setF_other q k k' v h

/-- The ways `forgeStageTwoQuery` can throw: a typed usage error built by
`buildUsageError` (carrying one of the enumerated `E_...` codes), a plain
consistency-violation `Error` (no code), or a re-thrown external exception
(`default: throw e`), remembered by the delegate's original code. -/
inductive ForgeErr where
  | usage (code : String)
  | consistency
  | external (code : String)
deriving Repr, DecidableEq

/-- The result of forging: since the source mutates the query in place and
throws, an error carries the state of the query object at the moment of the
throw ("partially mutated, discard-only"). -/
abbrev FR := Except (ForgeErr × Query) Query

/-! ## Method → allowed-keys table -/

/-- The `_getQueryKeys` switch: the set of acceptable query keys for each
recognized `method`; `none` for an unrecognized method (consistency
violation at the call site). -/
def getQueryKeys (m : String) : Option (List String) :=
  if m = "find" then some ["criteria", "populates"]
  else if m = "findOne" then some ["criteria", "populates"]
  else if m = "stream" then some ["criteria", "populates", "eachRecordFn", "eachBatchFn"]
  else if m = "count" then some ["criteria"]
  else if m = "sum" then some ["numericAttrName", "criteria"]
  else if m = "avg" then some ["numericAttrName", "criteria"]
  else if m = "create" then some ["newRecord"]
  else if m = "createEach" then some ["newRecords"]
  else if m = "findOrCreate" then some ["criteria", "newRecord"]
  else if m = "update" then some ["criteria", "valuesToSet"]
  else if m = "destroy" then some ["criteria"]
  else if m = "addToCollection" then some ["targetRecordIds", "collectionAttrName", "associatedIds"]
  else if m = "removeFromCollection" then some ["targetRecordIds", "collectionAttrName", "associatedIds"]
  else if m = "replaceCollection" then some ["targetRecordIds", "collectionAttrName", "associatedIds"]
  else none

/-- The method names the `_getQueryKeys` switch recognizes, in source
order. -/
def supportedMethods : List String :=
  ["find", "findOne", "stream", "count", "sum", "avg",
   "create", "createEach", "findOrCreate",
   "update", "destroy", "addToCollection", "removeFromCollection", "replaceCollection"]

def PROJECTION_COMPATIBLE_METHODS : List String := ["find", "findOne", "stream"]

def LIMIT_COMPATIBLE_METHODS : List String := ["find", "stream", "sum", "avg", "update", "destroy"]

/-! ## Per-key processing steps -/

/-- The `criteria` block: default an absent criteria to `{}`, check the
explicit `select`/`omit`/`limit` clauses for method compatibility (before
normalization), then delegate to the external criteria normalizer and
re-classify its failures. -/
def criteriaStep (e : Externals) (keys : List String) (method us : String) (ets : Bool)
    (q : Query) : FR :=
  if ¬ keys.contains "criteria" then .ok q else
  let q := if (qGet q "criteria").isUndef then qSet q "criteria" (.obj []) else q
  let crit := qGet q "criteria"
  if crit.isDict && (!(crit.get "select").isUndef || !(crit.get "omit").isUndef)
      && !(PROJECTION_COMPATIBLE_METHODS.contains method) then
    .error (.usage "E_INVALID_CRITERIA", q)
  else if crit.isDict && !(crit.get "limit").isUndef
      && !(LIMIT_COMPATIBLE_METHODS.contains method) then
    .error (.usage "E_INVALID_CRITERIA", q)
  else
    match e.normalizeCriteria crit us ets with
    | .ok c => .ok (qSet q "criteria" c)
    | .error c =>
      if c = "E_HIGHLY_IRREGULAR" then .error (.usage "E_INVALID_CRITERIA", q)
      else .error (.consistency, q)

/-- Processing of a single `populates` key (the body of the `_.each` over
`_.keys(query.populates)`).  The hardened-mode (`NODE_ENV === 'production'`)
check only emits a console warning and leaves the query and the outcome
untouched, so it does not appear in the state transition. -/
def populateOne (e : Externals) (us : String) (ets : Bool) (k : String) (q : Query) : FR :=
  let rhs := (qGet q "populates").get k
  -- `false`/`undefined` RHS: strip the key and return early.
  if rhs.jsEq (.bool false) || rhs.isUndef then
    .ok (qSet q "populates" ((qGet q "populates").objDel k))
  else
  let crit := qGet q "criteria"
  -- populate AND omit is invalid
  if crit.get "omit" |>.containsStr k then .error (.usage "E_INVALID_POPULATES", q)
  else
  -- add the attribute to an explicit, non-wildcard `select`
  let q :=
    let sel := crit.get "select"
    if !(sel.index0.isStrVal "*") && !(sel.containsStr k) then
      qSet q "criteria" (crit.objSet "select" (sel.arrPush (.str k)))
    else q
  let crit := qGet q "criteria"
  -- populate AND sort by the same attribute is invalid
  if ((crit.get "sort").arrL).any (fun d => d.firstKey = some k) then
    .error (.usage "E_INVALID_POPULATES", q)
  else
    match e.getAttribute k us with
    | .error c =>
      if c = "E_ATTR_NOT_REGISTERED" then .error (.usage "E_INVALID_POPULATES", q)
      else .error (.consistency, q)
    | .ok ad =>
      if sTruthy ad.model then
        -- singular ("model") association
        let rhs := (qGet q "populates").get k
        if rhs.isEmptyObj then
          .ok (qSet q "populates" ((qGet q "populates").objSet k (.bool true)))
        else if ¬ rhs.jsEq (.bool true) then
          .error (.usage "E_INVALID_POPULATES", q)
        else .ok q
      else if sTruthy ad.collection then
        -- plural ("collection") association
        let om := ad.collection.getD ""
        let q :=
          if ((qGet q "populates").get k).jsEq (.bool true) then
            qSet q "populates" ((qGet q "populates").objSet k (.obj []))
          else q
        match e.normalizeCriteria ((qGet q "populates").get k) om ets with
        | .ok c => .ok (qSet q "populates" ((qGet q "populates").objSet k c))
        | .error c =>
          if c = "E_HIGHLY_IRREGULAR" then .error (.usage "E_INVALID_POPULATES", q)
          else .error (.consistency, q)
      else
        -- neither a "model" nor a "collection" association
        .error (.usage "E_INVALID_POPULATES", q)

/-- The `populates` block: default, dictionary check, then per-key
processing in key order. -/
def populatesStep (e : Externals) (keys : List String) (us : String) (ets : Bool)
    (q : Query) : FR :=
  if ¬ keys.contains "populates" then .ok q else
  let q := if (qGet q "populates").isUndef then qSet q "populates" (.obj []) else q
  let ps := qGet q "populates"
  if ¬ ps.isDict then .error (.usage "E_INVALID_POPULATES", q)
  else (ps.objKeys).foldlM (fun q k => populateOne e us ets k q) q

/-- The `numericAttrName` block. -/
def numericStep (e : Externals) (keys : List String) (us : String) (q : Query) : FR :=
  if ¬ keys.contains "numericAttrName" then .ok q else
  let v := qGet q "numericAttrName"
  if v.isUndef then .error (.usage "E_INVALID_NUMERIC_ATTR_NAME", q)
  else
    match v with
    | .str s =>
      match e.getAttribute s us with
      | .error c =>
        if c = "E_ATTR_NOT_REGISTERED" then .error (.usage "E_INVALID_NUMERIC_ATTR_NAME", q)
        else .error (.external c, q)
      | .ok ad =>
        if ¬ ad.typ = some "number" then .error (.usage "E_INVALID_NUMERIC_ATTR_NAME", q)
        else .ok q
    | _ => .error (.usage "E_INVALID_NUMERIC_ATTR_NAME", q)

/-- The `eachRecordFn`/`eachBatchFn` block: exactly one of the two must be
provided, and it must be a function. -/
def streamFnsStep (keys : List String) (q : Query) : FR :=
  if ¬ (keys.contains "eachRecordFn" || keys.contains "eachBatchFn") then .ok q else
  let r := qGet q "eachRecordFn"
  let b := qGet q "eachBatchFn"
  if !r.isUndef && !b.isUndef then .error (.usage "E_INVALID_STREAM_ITERATEE", q)
  else if !r.isUndef then
    if ¬ r.isFn then .error (.usage "E_INVALID_STREAM_ITERATEE", q) else .ok q
  else if !b.isUndef then
    if ¬ b.isFn then .error (.usage "E_INVALID_STREAM_ITERATEE", q) else .ok q
  else .error (.usage "E_INVALID_STREAM_ITERATEE", q)

/-- The `newRecord` block. -/
def newRecordStep (e : Externals) (keys : List String) (us : String) (ets : Bool)
    (q : Query) : FR :=
  if ¬ keys.contains "newRecord" then .ok q else
  match e.normalizeNewRecord (qGet q "newRecord") us ets with
  | .ok v => .ok (qSet q "newRecord" v)
  | .error c =>
    if c = "E_INVALID" || c = "E_MISSING_REQUIRED" || c = "E_HIGHLY_IRREGULAR" then
      .error (.usage "E_INVALID_NEW_RECORD", q)
    else .error (.external c, q)

/-- The `newRecords` block: must be an array; each element is normalized as
a new record (the array is reassigned only after the whole map succeeds). -/
def newRecordsStep (e : Externals) (keys : List String) (us : String) (ets : Bool)
    (q : Query) : FR :=
  if ¬ keys.contains "newRecords" then .ok q else
  let v := qGet q "newRecords"
  if v.isUndef then .error (.usage "E_INVALID_NEW_RECORDS", q)
  else if ¬ v.isArr then .error (.usage "E_INVALID_NEW_RECORDS", q)
  else
    match v.arrL.mapM (fun r =>
        match e.normalizeNewRecord r us ets with
        | .ok nr => Except.ok nr
        | .error c =>
          if c = "E_INVALID" || c = "E_MISSING_REQUIRED" || c = "E_HIGHLY_IRREGULAR" then
            Except.error (ForgeErr.usage "E_INVALID_NEW_RECORDS", q)
          else Except.error (ForgeErr.external c, q)) with
    | .ok rs => .ok (qSet q "newRecords" (.arr rs))
    | .error err => .error err

/-- Processing of a single `valuesToSet` key. -/
def valueToSetOne (e : Externals) (us : String) (ets : Bool) (k : String) (q : Query) : FR :=
  match e.normalizeValueToSet ((qGet q "valuesToSet").get k) k us ets with
  | .ok nv => .ok (qSet q "valuesToSet" ((qGet q "valuesToSet").objSet k nv))
  | .error c =>
    if c = "E_SHOULD_BE_IGNORED" then .ok (qSet q "valuesToSet" ((qGet q "valuesToSet").objDel k))
    else if c = "E_HIGHLY_IRREGULAR" then .error (.usage "E_INVALID_VALUES_TO_SET", q)
    else if c = "E_INVALID" then .error (.usage "E_INVALID_VALUES_TO_SET", q)
    else .error (.external c, q)

/-- The `valuesToSet` block. -/
def valuesToSetStep (e : Externals) (keys : List String) (us : String) (ets : Bool)
    (q : Query) : FR :=
  if ¬ keys.contains "valuesToSet" then .ok q else
  let v := qGet q "valuesToSet"
  if ¬ v.isDict then .error (.usage "E_INVALID_VALUES_TO_SET", q)
  else (v.objKeys).foldlM (fun q k => valueToSetOne e us ets k q) q

/-- The `targetRecordIds` block: normalize against the primary key's
declared type. -/
def targetRecordIdsStep (e : Externals) (keys : List String) (us : String)
    (wlModel : ModelDef) (q : Query) : FR :=
  if ¬ keys.contains "targetRecordIds" then .ok q else
  match e.getAttribute wlModel.primaryKey us with
  | .error c => .error (.external c, q)
  | .ok pkd =>
    match e.normalizePkValues (qGet q "targetRecordIds") pkd.typ with
    | .ok ids => .ok (qSet q "targetRecordIds" ids)
    | .error c =>
      if c = "E_INVALID_PK_VALUE" then .error (.usage "E_INVALID_TARGET_RECORD_IDS", q)
      else .error (.external c, q)

/-- The `collectionAttrName` block: must name an existing plural
("collection") association. -/
def collectionAttrStep (e : Externals) (keys : List String) (us : String) (q : Query) : FR :=
  if ¬ keys.contains "collectionAttrName" then .ok q else
  match qGet q "collectionAttrName" with
  | .str s =>
    match e.getAttribute s us with
    | .error c =>
      if c = "E_ATTR_NOT_REGISTERED" then .error (.usage "E_INVALID_COLLECTION_ATTR_NAME", q)
      else .error (.external c, q)
    | .ok ad =>
      if ¬ sTruthy ad.collection then .error (.usage "E_INVALID_COLLECTION_ATTR_NAME", q)
      else .ok q
  | _ => .error (.usage "E_INVALID_COLLECTION_ATTR_NAME", q)

/-- The `associatedIds` block: resolve the associated model's primary-key
type via the collection attribute (outside any try/catch in the source),
then normalize. -/
def associatedIdsStep (e : Externals) (keys : List String) (us : String) (q : Query) : FR :=
  if ¬ keys.contains "associatedIds" then .ok q else
  let can :=
    match qGet q "collectionAttrName" with
    | .str s => s
    | _ => ""
  match e.getAttribute can us with
  | .error c => .error (.external c, q)
  | .ok ad =>
    let om := ad.collection.getD ""
    match e.getModel om with
    | .error c => .error (.external c, q)
    | .ok am =>
      match e.getAttribute am.primaryKey om with
      | .error c => .error (.external c, q)
      | .ok pkd =>
        match e.normalizePkValues (qGet q "associatedIds") pkd.typ with
        | .ok ids => .ok (qSet q "associatedIds" ids)
        | .error c =>
          if c = "E_INVALID_PK_VALUE" then .error (.usage "E_INVALID_ASSOCIATED_IDS", q)
          else .error (.external c, q)

/-! ## The forge -/

/-- The per-key processing pipeline of the forge, in source order, run once
the universal checks (`meta`, `using`, `method`, extraneous keys) have
passed. -/
def forgeSteps (e : Externals) (queryKeys : List String) (m us : String) (ets : Bool)
    (wlModel : ModelDef) (q : Query) : FR :=
  (criteriaStep e queryKeys m us ets q).bind
    (fun q => (populatesStep e queryKeys us ets q).bind
    (fun q => (numericStep e queryKeys us q).bind
    (fun q => (streamFnsStep queryKeys q).bind
    (fun q => (newRecordStep e queryKeys us ets q).bind
    (fun q => (newRecordsStep e queryKeys us ets q).bind
    (fun q => (valuesToSetStep e queryKeys us ets q).bind
    (fun q => (targetRecordIdsStep e queryKeys us wlModel q).bind
    (fun q => (collectionAttrStep e queryKeys us q).bind
    (fun q => associatedIdsStep e queryKeys us q)))))))))

/-- `forgeStageTwoQuery(query, orm)`: validate and normalize a stage-1
query into a stage-2 query.  The source mutates its argument and returns
nothing; here the final query state is returned on success, and an error
carries the query state at the moment of the throw. -/
def forgeStageTwoQuery (e : Externals) (q : Query) : FR :=
  -- check `meta`
  let meta := qGet q "meta"
  if ¬ (meta.isUndef || meta.isDict) then .error (.usage "E_INVALID_META", q)
  else
  -- unless `meta.typeSafety` is exactly '', ensure type safety
  let ets : Bool := meta.isUndef || !((meta.get "typeSafety").isStrVal "")
  -- check `using`
  match qGet q "using" with
  | .str us =>
    if us = "" then .error (.consistency, q)
    else
      match e.getModel us with
      | .error c =>
        if c = "E_MODEL_NOT_REGISTERED" then .error (.consistency, q)
        else .error (.external c, q)
      | .ok wlModel =>
        -- check `method` and determine the acceptable query keys
        match qGet q "method" with
        | .str m =>
          if m = "" then .error (.consistency, q)
          else
            match getQueryKeys m with
            | none => .error (.consistency, q)
            | some queryKeys =>
              -- no extraneous top-level keys
              let allowed := ["meta", "using", "method"] ++ queryKeys
              if ¬ ((qKeys q).filter (fun k => ¬ allowed.contains k)).isEmpty then
                .error (.consistency, q)
              else
                forgeSteps e queryKeys m us ets wlModel q
        | _ => .error (.consistency, q)
  | _ => .error (.consistency, q)

/-! ## A concrete ontology for witnesses and counterexamples -/

/-- The canonical normalized criteria a conforming criteria normalizer
produces for `{}` on a model with default settings: `where`, `limit`,
`skip`, `sort`, `select` in canonical form. -/
def defaultNormalizedCriteria : JVal :=
  .obj [("where", .obj []), ("limit", .num 9007199254740991), ("skip", .num 0),
        ("sort", .arr []), ("select", .arr [.str "*"]), ("omit", .arr [])]

/-- A small concrete ontology and set of conforming external normalizers:
a `user` model (primary key `id`) with a singular association `mom` (to
`user`) and a plural association `pets` (to `pet`), and a `pet` model.
The normalizers succeed and return canonical shapes. -/
def exOrm : Externals where
  getModel := fun u =>
    if u = "user" then .ok ⟨"id"⟩
    else if u = "pet" then .ok ⟨"id"⟩
    else .error "E_MODEL_NOT_REGISTERED"
  getAttribute := fun a u =>
    if u = "user" && a = "id" then .ok ⟨some "string", none, none⟩
    else if u = "user" && a = "age" then .ok ⟨some "number", none, none⟩
    else if u = "user" && a = "mom" then .ok ⟨none, some "user", none⟩
    else if u = "user" && a = "pets" then .ok ⟨none, none, some "pet"⟩
    else if u = "pet" && a = "id" then .ok ⟨some "number", none, none⟩
    else .error "E_ATTR_NOT_REGISTERED"
  isCapableOfOptimizedPopulate := fun _ _ => true
  normalizeCriteria := fun _ _ _ => .ok defaultNormalizedCriteria
  normalizeNewRecord := fun r _ _ => .ok r
  normalizeValueToSet := fun v _ _ _ => .ok v
  normalizePkValues := fun v _ => .ok v

/-! ## Dispatch lemma: reaching the per-key pipeline -/

/-- When the universal checks pass (`meta` absent or a dictionary, `using`
a registered non-empty string, `method` a recognized non-empty string, no
extraneous top-level keys), the forge runs the per-key pipeline. -/
theorem forge_dispatch (e : Externals) (q : Query) (us m : String)
    (ks : List String) (M : ModelDef)
    (hmeta : ((qGet q "meta").isUndef || (qGet q "meta").isDict) = true)
    (husing : qGet q "using" = .str us) (hus : ¬ us = "")
    (hmod : e.getModel us = .ok M)
    (hmethod : qGet q "method" = .str m) (hm : ¬ m = "")
    (hks : getQueryKeys m = some ks)
    (hex : ((qKeys q).filter
      (fun k => ¬ (["meta", "using", "method"] ++ ks).contains k)).isEmpty = true) :
    forgeStageTwoQuery e q =
      forgeSteps e ks m us
        ((qGet q "meta").isUndef || !(((qGet q "meta").get "typeSafety").isStrVal "")) M q := by
  unfold forgeStageTwoQuery
  rw [husing, hmethod]
  simp only [hmeta, hmod, hks, hex]
  simp [hus, hm]

/-! ## Helper lemmas about the criteria pipeline -/

/-- The criteria guard for explicit `select`/`omit` on an incompatible
method throws `E_INVALID_CRITERIA` with the query untouched, regardless of
the external normalizers. -/
theorem criteriaStep_guard_projection (e : Externals) (ks : List String) (m us : String)
    (ets : Bool) (q : Query) (fs : List (String × JVal))
    (hc : "criteria" ∈ ks)
    (hcrit : qGet q "criteria" = .obj fs)
    (hso : (JVal.getF fs "select").isUndef = false ∨
      (JVal.getF fs "omit").isUndef = false)
    (hpm : m ∉ PROJECTION_COMPATIBLE_METHODS) :
    criteriaStep e ks m us ets q = .error (.usage "E_INVALID_CRITERIA", q) := by
  unfold criteriaStep
  simp [hc, hcrit, hso, hpm]

/-- The criteria guard for an explicit `limit` on an incompatible method
throws `E_INVALID_CRITERIA` with the query untouched, regardless of the
external normalizers. -/
theorem criteriaStep_guard_limit (e : Externals) (ks : List String) (m us : String)
    (ets : Bool) (q : Query) (fs : List (String × JVal))
    (hc : "criteria" ∈ ks)
    (hcrit : qGet q "criteria" = .obj fs)
    (hl : (JVal.getF fs "limit").isUndef = false)
    (hlm : m ∉ LIMIT_COMPATIBLE_METHODS) :
    criteriaStep e ks m us ets q = .error (.usage "E_INVALID_CRITERIA", q) := by
  unfold criteriaStep
  by_cases hso : ((JVal.getF fs "select").isUndef = false ∨
      (JVal.getF fs "omit").isUndef = false) ∧ m ∉ PROJECTION_COMPATIBLE_METHODS
  · simp [hc, hcrit, hso.1, hso.2]
  · simp [hc, hcrit, hso, hl, hlm]

/-- A failure in the criteria block aborts the whole per-key pipeline. -/
theorem forgeSteps_of_criteria_error (e : Externals) (ks : List String) (m us : String)
    (ets : Bool) (M : ModelDef) (q : Query) (x : ForgeErr × Query)
    (h : criteriaStep e ks m us ets q = .error x) :
    forgeSteps e ks m us ets M q = .error x := by
  unfold forgeSteps
  rw [h]
  rfl

/-! ## C1: `select`/`omit` and `limit` method-compatibility guards -/

/-- C1 (amended): for a query that passes the universal checks and whose
`method` accepts a `criteria` key, if the criteria dictionary explicitly
contains `select` or `omit` and the method is not `find`/`findOne`/`stream`,
the forge throws the typed usage error `E_INVALID_CRITERIA`; likewise for an
explicit `limit` when the method is not one of
`find`/`stream`/`sum`/`avg`/`update`/`destroy`.  The error state is the
untouched query and the conclusion holds for every choice of external
normalizers, so the check fires before `normalizeCriteria` is invoked. -/
theorem claim1_projection_and_limit_guards (e : Externals) (q : Query) (us m : String)
    (ks : List String) (M : ModelDef) (fs : List (String × JVal))
    (hmeta : ((qGet q "meta").isUndef || (qGet q "meta").isDict) = true)
    (husing : qGet q "using" = .str us) (hus : ¬ us = "")
    (hmod : e.getModel us = .ok M)
    (hmethod : qGet q "method" = .str m) (hm : ¬ m = "")
    (hks : getQueryKeys m = some ks)
    (hex : ((qKeys q).filter
      (fun k => ¬ (["meta", "using", "method"] ++ ks).contains k)).isEmpty = true)
    (hc : "criteria" ∈ ks)
    (hcrit : qGet q "criteria" = .obj fs) :
    (((JVal.getF fs "select").isUndef = false ∨
        (JVal.getF fs "omit").isUndef = false) →
      m ∉ PROJECTION_COMPATIBLE_METHODS →
      forgeStageTwoQuery e q = .error (.usage "E_INVALID_CRITERIA", q)) ∧
    ((JVal.getF fs "limit").isUndef = false →
      m ∉ LIMIT_COMPATIBLE_METHODS →
      forgeStageTwoQuery e q = .error (.usage "E_INVALID_CRITERIA", q)) := by
  rw [forge_dispatch e q us m ks M hmeta husing hus hmod hmethod hm hks hex]
  constructor
  · intro hso hpm
    exact forgeSteps_of_criteria_error _ _ _ _ _ _ _ _
      (criteriaStep_guard_projection _ _ _ _ _ _ _ hc hcrit hso hpm)
  · intro hl hlm
    exact forgeSteps_of_criteria_error _ _ _ _ _ _ _ _
      (criteriaStep_guard_limit _ _ _ _ _ _ _ hc hcrit hl hlm)

def claim1WitnessQuery : Query :=
  [("using", .str "user"), ("method", .str "count"),
   ("criteria", .obj [("select", .arr [.str "x"])])]

/-- Concrete instance of the C1 guards: a `count` query with an explicit
`select` fails with `E_INVALID_CRITERIA` and an untouched query state. -/
theorem claim1_guards_witness :
    forgeStageTwoQuery exOrm claim1WitnessQuery =
      .error (.usage "E_INVALID_CRITERIA", claim1WitnessQuery) :=
  (claim1_projection_and_limit_guards exOrm claim1WitnessQuery "user" "count"
    ["criteria"] ⟨"id"⟩ [("select", .arr [.str "x"])]
    (by decide) rfl (by decide) rfl rfl (by decide) rfl (by decide) (by decide) rfl).1
    (by decide) (by decide)

def claim1CexQuery : Query :=
  [("using", .str "user"), ("method", .str "create"), ("newRecord", .obj []),
   ("criteria", .obj [("select", .arr [.str "x"])])]

/-- C1 as stated is false: a `create` query whose criteria explicitly
contains `select` is rejected as an extraneous-top-level-key consistency
violation (a plain error), not with the typed usage error
`E_INVALID_CRITERIA`, because `create` does not accept a `criteria` key at
all. -/
theorem claim1_cex_method_without_criteria :
    forgeStageTwoQuery exOrm claim1CexQuery = .error (.consistency, claim1CexQuery) := by
  rfl

/-! ## C2: extraneous top-level keys -/

/-- C2 (amended): for every supported method and every choice of external
normalizers, a query that passes the `meta`/`using`/`method` checks and
contains a top-level key outside `{meta, using, method}` plus the method's
allowed keys is rejected with a plain consistency-violation error (no typed
usage code), with the query state untouched — so no normalizer has run and
no field has been rewritten. -/
theorem claim2_extraneous_keys_consistency (e : Externals) (q : Query) (us m : String)
    (ks : List String) (M : ModelDef)
    (hmeta : ((qGet q "meta").isUndef || (qGet q "meta").isDict) = true)
    (husing : qGet q "using" = .str us) (hus : ¬ us = "")
    (hmod : e.getModel us = .ok M)
    (hmethod : qGet q "method" = .str m) (hm : ¬ m = "")
    (hks : getQueryKeys m = some ks)
    (hex : ((qKeys q).filter
      (fun k => ¬ (["meta", "using", "method"] ++ ks).contains k)).isEmpty = false) :
    forgeStageTwoQuery e q = .error (.consistency, q) := by
  unfold forgeStageTwoQuery
  rw [husing, hmethod]
  simp only [hmeta, hmod, hks, hex]
  simp [hus, hm]

def claim2WitnessQuery : Query :=
  [("using", .str "user"), ("method", .str "find"), ("bogus", .num 1)]

/-- Concrete instance of C2: a `find` query with the extraneous key `bogus`
is rejected as a consistency violation, whatever the normalizers do. -/
theorem claim2_extraneous_keys_witness :
    forgeStageTwoQuery exOrm claim2WitnessQuery = .error (.consistency, claim2WitnessQuery) :=
  claim2_extraneous_keys_consistency exOrm claim2WitnessQuery "user" "find"
    ["criteria", "populates"] ⟨"id"⟩
    (by decide) rfl (by decide) rfl rfl (by decide) rfl (by decide)

def claim2CexQuery : Query :=
  [("using", .str "user"), ("method", .str "find"), ("meta", .num 5), ("bogus", .num 1)]

/-- C2 as stated is false: a query carrying both an extraneous top-level
key and a non-dictionary `meta` throws the typed usage error
`E_INVALID_META` (the `meta` check runs first), not a plain
internal-consistency error. -/
theorem claim2_cex_invalid_meta_precedes :
    forgeStageTwoQuery exOrm claim2CexQuery =
      .error (.usage "E_INVALID_META", claim2CexQuery) := by
  rfl

/-! ## C3: the method table -/

/-- C3 (amended): the set of `method` values recognized by the forge is
exactly the fourteen operations of the `_getQueryKeys` switch, each mapped
to its fixed list of additional allowed top-level keys, and forging a query
whose `method` is any other string throws a plain consistency-violation
fault, not a typed usage error. -/
theorem claim3_method_table :
    (∀ m : String, (getQueryKeys m).isSome = true ↔ m ∈ supportedMethods) ∧
    (getQueryKeys "find" = some ["criteria", "populates"] ∧
     getQueryKeys "findOne" = some ["criteria", "populates"] ∧
     getQueryKeys "stream" = some ["criteria", "populates", "eachRecordFn", "eachBatchFn"] ∧
     getQueryKeys "count" = some ["criteria"] ∧
     getQueryKeys "sum" = some ["numericAttrName", "criteria"] ∧
     getQueryKeys "avg" = some ["numericAttrName", "criteria"] ∧
     getQueryKeys "create" = some ["newRecord"] ∧
     getQueryKeys "createEach" = some ["newRecords"] ∧
     getQueryKeys "findOrCreate" = some ["criteria", "newRecord"] ∧
     getQueryKeys "update" = some ["criteria", "valuesToSet"] ∧
     getQueryKeys "destroy" = some ["criteria"] ∧
     getQueryKeys "addToCollection" = some ["targetRecordIds", "collectionAttrName", "associatedIds"] ∧
     getQueryKeys "removeFromCollection" = some ["targetRecordIds", "collectionAttrName", "associatedIds"] ∧
     getQueryKeys "replaceCollection" = some ["targetRecordIds", "collectionAttrName", "associatedIds"]) ∧
    (∀ (e : Externals) (q : Query) (us m : String) (M : ModelDef),
      ((qGet q "meta").isUndef || (qGet q "meta").isDict) = true →
      qGet q "using" = .str us → ¬ us = "" → e.getModel us = .ok M →
      qGet q "method" = .str m → ¬ m = "" → getQueryKeys m = none →
      forgeStageTwoQuery e q = .error (.consistency, q)) := by
  refine ⟨?_, ⟨rfl, rfl, rfl, rfl, rfl, rfl, rfl, rfl, rfl, rfl, rfl, rfl, rfl, rfl⟩, ?_⟩
  · intro m
    constructor
    · intro h
      by_contra hmem
      simp only [supportedMethods, List.mem_cons, List.mem_singleton, List.mem_nil_iff,
        not_or, not_false_iff, and_true] at hmem
      obtain ⟨h1, h2, h3, h4, h5, h6, h7, h8, h9, h10, h11, h12, h13, h14⟩ := hmem
      unfold getQueryKeys at h
      rw [if_neg h1, if_neg h2, if_neg h3, if_neg h4, if_neg h5, if_neg h6, if_neg h7,
        if_neg h8, if_neg h9, if_neg h10, if_neg h11, if_neg h12, if_neg h13, if_neg h14] at h
      simp at h
    · intro hmem
      fin_cases hmem <;> rfl
  · intro e q us m M hmeta husing hus hmod hmethod hm hqk
    unfold forgeStageTwoQuery
    rw [husing, hmethod]
    simp only [hmeta, hmod, hqk]
    simp [hus, hm]

def claim3WitnessQuery : Query := [("using", .str "user"), ("method", .str "explode")]

/-- Concrete instance of C3: `find` maps to its fixed key set, and the
unrecognized method `explode` is rejected as a consistency violation. -/
theorem claim3_method_table_witness :
    getQueryKeys "find" = some ["criteria", "populates"] ∧
    forgeStageTwoQuery exOrm claim3WitnessQuery = .error (.consistency, claim3WitnessQuery) :=
  ⟨claim3_method_table.2.1.1,
   claim3_method_table.2.2 exOrm claim3WitnessQuery "user" "explode" ⟨"id"⟩
     (by decide) rfl (by decide) rfl rfl (by decide) rfl⟩

/-- C3 as stated is false in its cardinality: the recognized operations
are fourteen pairwise-distinct method names, not twelve. -/
theorem claim3_cex_fourteen_methods :
    supportedMethods.Nodup ∧ supportedMethods.length = 14 ∧
    supportedMethods.all (fun m => (getQueryKeys m).isSome) = true ∧
    ¬ supportedMethods.length = 12 :=
  ⟨by decide, rfl, by decide, by decide⟩

/-! ## Helper lemmas for the populates pipeline -/

@[simp] theorem ebind_ok {ε α β : Type} (a : α) (f : α → Except ε β) :
    (Except.ok a : Except ε α).bind f = f a := rfl

@[simp] theorem ebind_error {ε α β : Type} (x : ε) (f : α → Except ε β) :
    (Except.error x : Except ε α).bind f = .error x := rfl

/-- When the method is compatible with both projections and `limit`, the
criteria block reduces to the external normalizer's verdict and stores its
result. -/
theorem criteriaStep_ok_compat (e : Externals) (ks : List String) (m us : String)
    (ets : Bool) (q : Query) (crit0 C : JVal)
    (hc : "criteria" ∈ ks)
    (hcrit : qGet q "criteria" = crit0)
    (hcu : crit0.isUndef = false)
    (hp : m ∈ PROJECTION_COMPATIBLE_METHODS)
    (hl : m ∈ LIMIT_COMPATIBLE_METHODS)
    (hnc : e.normalizeCriteria crit0 us ets = .ok C) :
    criteriaStep e ks m us ets q = .ok (qSet q "criteria" C) := by
  unfold criteriaStep
  simp [hc, hcrit, hcu, hp, hl, hnc]

/-- A `populates` dictionary with a single key reduces to the processing of
that key (error case). -/
theorem populatesStep_single_error (e : Externals) (ks : List String) (us : String)
    (ets : Bool) (q : Query) (a : String) (rhs : JVal) (x : ForgeErr × Query)
    (hp : "populates" ∈ ks)
    (hpop : qGet q "populates" = .obj [(a, rhs)])
    (h1 : populateOne e us ets a q = .error x) :
    populatesStep e ks us ets q = .error x := by
  unfold populatesStep
  simp [hp, hpop, List.foldlM, h1]

/-- A `populates` dictionary with a single key reduces to the processing of
that key (success case). -/
theorem populatesStep_single_ok (e : Externals) (ks : List String) (us : String)
    (ets : Bool) (q : Query) (a : String) (rhs : JVal) (q2 : Query)
    (hp : "populates" ∈ ks)
    (hpop : qGet q "populates" = .obj [(a, rhs)])
    (h1 : populateOne e us ets a q = .ok q2) :
    populatesStep e ks us ets q = .ok q2 := by
  unfold populatesStep
  simp [hp, hpop, List.foldlM, h1]

/-- A failure in the populates block aborts the pipeline after the criteria
block. -/
theorem forgeSteps_of_populates_error (e : Externals) (ks : List String) (m us : String)
    (ets : Bool) (M : ModelDef) (q q1 : Query) (x : ForgeErr × Query)
    (h1 : criteriaStep e ks m us ets q = .ok q1)
    (h2 : populatesStep e ks us ets q1 = .error x) :
    forgeSteps e ks m us ets M q = .error x := by
  unfold forgeSteps
  rw [h1]
  simp only [ebind_ok]
  rw [h2]
  rfl

/-- For a `find`-shaped key set, once criteria and populates succeed the
remaining per-key blocks are all skipped. -/
theorem forgeSteps_find_ok (e : Externals) (m us : String) (ets : Bool) (M : ModelDef)
    (q q1 q2 : Query)
    (h1 : criteriaStep e ["criteria", "populates"] m us ets q = .ok q1)
    (h2 : populatesStep e ["criteria", "populates"] us ets q1 = .ok q2) :
    forgeSteps e ["criteria", "populates"] m us ets M q = .ok q2 := by
  unfold forgeSteps
  rw [h1]
  simp only [ebind_ok]
  rw [h2]
  rfl

/-- Populating an attribute that the normalized criteria also omits throws
`E_INVALID_POPULATES` (before the attribute is even looked up, so this holds
for any model/attribute combination). -/
theorem populateOne_omit_conflict (e : Externals) (us : String) (ets : Bool) (a : String)
    (q : Query) (rhs C : JVal)
    (hrhs : (qGet q "populates").get a = rhs)
    (hrF : rhs.jsEq (.bool false) = false) (hrU : rhs.isUndef = false)
    (hcrit : qGet q "criteria" = C)
    (homit : (C.get "omit").containsStr a = true) :
    populateOne e us ets a q = .error (.usage "E_INVALID_POPULATES", q) := by
  unfold populateOne
  simp [hrhs, hrF, hrU, hcrit, homit]

/-- Populating an attribute that appears as a comparator key of the
normalized primary `sort` throws `E_INVALID_POPULATES`. -/
theorem populateOne_sort_conflict (e : Externals) (us : String) (ets : Bool) (a : String)
    (q : Query) (rhs C : JVal)
    (hrhs : (qGet q "populates").get a = rhs)
    (hrF : rhs.jsEq (.bool false) = false) (hrU : rhs.isUndef = false)
    (hcrit : qGet q "criteria" = C)
    (homit : (C.get "omit").containsStr a = false)
    (hsel : (C.get "select").index0.isStrVal "*" = true)
    (hsort : ((C.get "sort").arrL).any (fun d => d.firstKey = some a) = true) :
    populateOne e us ets a q = .error (.usage "E_INVALID_POPULATES", q) := by
  unfold populateOne
  simp [hrhs, hrF, hrU, hcrit, homit, hsel, hsort]

/-- The right-hand-side cases for populating a singular ("model")
association: `{}` is stored as `true`, `true` is kept, anything else throws
`E_INVALID_POPULATES`. -/
theorem populateOne_singular (e : Externals) (us : String) (ets : Bool) (a : String)
    (q : Query) (rhs C : JVal) (ad : AttrDef)
    (hrhs : (qGet q "populates").get a = rhs)
    (hrF : rhs.jsEq (.bool false) = false) (hrU : rhs.isUndef = false)
    (hcrit : qGet q "criteria" = C)
    (homit : (C.get "omit").containsStr a = false)
    (hsel : (C.get "select").index0.isStrVal "*" = true)
    (hsort : ((C.get "sort").arrL).any (fun d => d.firstKey = some a) = false)
    (hattr : e.getAttribute a us = .ok ad)
    (hmodel : sTruthy ad.model = true) :
    (rhs.isEmptyObj = true →
      populateOne e us ets a q =
        .ok (qSet q "populates" ((qGet q "populates").objSet a (.bool true)))) ∧
    (rhs.isEmptyObj = false → rhs.jsEq (.bool true) = true →
      populateOne e us ets a q = .ok q) ∧
    (rhs.isEmptyObj = false → rhs.jsEq (.bool true) = false →
      populateOne e us ets a q = .error (.usage "E_INVALID_POPULATES", q)) := by
  refine ⟨fun hE => ?_, fun hE hT => ?_, fun hE hT => ?_⟩
  · unfold populateOne
    simp [hrhs, hrF, hrU, hcrit, homit, hsel, hsort, hattr, hmodel, hE]
  · unfold populateOne
    simp [hrhs, hrF, hrU, hcrit, homit, hsel, hsort, hattr, hmodel, hE, hT]
  · unfold populateOne
    simp [hrhs, hrF, hrU, hcrit, homit, hsel, hsort, hattr, hmodel, hE, hT]

/-! ## The `find`-with-one-populate query scaffold -/

/-- A minimal `find` query with a criteria value and a single populate
directive, as used by the populate-related claims. -/
def findPopulateScaffold (us a : String) (crit0 rhs : JVal) : Query :=
  [("using", .str us), ("method", .str "find"),
   ("criteria", crit0), ("populates", .obj [(a, rhs)])]

/-! ## C5: populate vs. `omit` -/

/-- C5: forging a `find` query with a single populate directive whose key
is an element of the normalized criteria's `omit` clause fails with the
typed usage error `E_INVALID_POPULATES` — for any attribute name and any
ontology (the attribute definition is never consulted). -/
theorem claim5_populate_omit_conflict (e : Externals) (us a : String)
    (crit0 rhs C : JVal) (M : ModelDef)
    (hus : ¬ us = "") (hmod : e.getModel us = .ok M)
    (hcu : crit0.isUndef = false)
    (hnc : e.normalizeCriteria crit0 us true = .ok C)
    (hrF : rhs.jsEq (.bool false) = false) (hrU : rhs.isUndef = false)
    (homit : (C.get "omit").containsStr a = true) :
    forgeStageTwoQuery e (findPopulateScaffold us a crit0 rhs) =
      .error (.usage "E_INVALID_POPULATES", findPopulateScaffold us a C rhs) := by
  rw [forge_dispatch e (findPopulateScaffold us a crit0 rhs) us "find"
      ["criteria", "populates"] M rfl rfl hus hmod rfl (by decide) rfl rfl,
    show ((qGet (findPopulateScaffold us a crit0 rhs) "meta").isUndef
      || !(((qGet (findPopulateScaffold us a crit0 rhs) "meta").get "typeSafety").isStrVal ""))
      = true from rfl]
  have hcs : criteriaStep e ["criteria", "populates"] "find" us true
      (findPopulateScaffold us a crit0 rhs) = .ok (findPopulateScaffold us a C rhs) := by
    rw [criteriaStep_ok_compat e ["criteria", "populates"] "find" us true
      (findPopulateScaffold us a crit0 rhs) crit0 C (by decide) rfl hcu (by decide)
      (by decide) hnc]
    simp [findPopulateScaffold, qSet]
  have hpo : populateOne e us true a (findPopulateScaffold us a C rhs) =
      .error (.usage "E_INVALID_POPULATES", findPopulateScaffold us a C rhs) :=
    populateOne_omit_conflict e us true a (findPopulateScaffold us a C rhs) rhs C
      (by simp [findPopulateScaffold, qGet]) hrF hrU rfl homit
  exact forgeSteps_of_populates_error e ["criteria", "populates"] "find" us true M
    (findPopulateScaffold us a crit0 rhs) (findPopulateScaffold us a C rhs) _ hcs
    (populatesStep_single_error e ["criteria", "populates"] us true
      (findPopulateScaffold us a C rhs) a rhs _ (by decide) rfl hpo)

/-- A normalized criteria that omits `mom`, as a conforming normalizer
could produce it. -/
def omitNormalizedCriteria : JVal :=
  .obj [("where", .obj []), ("limit", .num 9007199254740991), ("skip", .num 0),
        ("sort", .arr []), ("select", .arr [.str "*"]), ("omit", .arr [.str "mom"])]

/-- The example ontology with a criteria normalizer that yields an `omit`
containing `mom`. -/
def exOrmOmit : Externals :=
  { exOrm with normalizeCriteria := fun _ _ _ => .ok omitNormalizedCriteria }

/-- Concrete instance of C5: populating `mom` while the criteria omits
`mom` fails with `E_INVALID_POPULATES`. -/
theorem claim5_populate_omit_witness :
    forgeStageTwoQuery exOrmOmit (findPopulateScaffold "user" "mom" (.obj []) (.bool true)) =
      .error (.usage "E_INVALID_POPULATES",
        findPopulateScaffold "user" "mom" omitNormalizedCriteria (.bool true)) :=
  claim5_populate_omit_conflict exOrmOmit "user" "mom" (.obj []) (.bool true)
    omitNormalizedCriteria ⟨"id"⟩ (by decide) rfl rfl rfl rfl rfl (by decide)

/-! ## C6: populate vs. primary `sort` -/

/-- C6: forging a `find` query with a single populate directive whose key
appears as the comparator key of some directive of the normalized primary
`sort` fails with the typed usage error `E_INVALID_POPULATES`, whatever
value encodes the sort direction (the directive's right-hand side is
unconstrained). -/
theorem claim6_populate_sort_conflict (e : Externals) (us a : String)
    (crit0 rhs C : JVal) (M : ModelDef)
    (hus : ¬ us = "") (hmod : e.getModel us = .ok M)
    (hcu : crit0.isUndef = false)
    (hnc : e.normalizeCriteria crit0 us true = .ok C)
    (hrF : rhs.jsEq (.bool false) = false) (hrU : rhs.isUndef = false)
    (homit : (C.get "omit").containsStr a = false)
    (hsel : (C.get "select").index0.isStrVal "*" = true)
    (hsort : ((C.get "sort").arrL).any (fun d => d.firstKey = some a) = true) :
    forgeStageTwoQuery e (findPopulateScaffold us a crit0 rhs) =
      .error (.usage "E_INVALID_POPULATES", findPopulateScaffold us a C rhs) := by
  rw [forge_dispatch e (findPopulateScaffold us a crit0 rhs) us "find"
      ["criteria", "populates"] M rfl rfl hus hmod rfl (by decide) rfl rfl,
    show ((qGet (findPopulateScaffold us a crit0 rhs) "meta").isUndef
      || !(((qGet (findPopulateScaffold us a crit0 rhs) "meta").get "typeSafety").isStrVal ""))
      = true from rfl]
  have hcs : criteriaStep e ["criteria", "populates"] "find" us true
      (findPopulateScaffold us a crit0 rhs) = .ok (findPopulateScaffold us a C rhs) := by
    rw [criteriaStep_ok_compat e ["criteria", "populates"] "find" us true
      (findPopulateScaffold us a crit0 rhs) crit0 C (by decide) rfl hcu (by decide)
      (by decide) hnc]
    simp [findPopulateScaffold, qSet]
  have hpo : populateOne e us true a (findPopulateScaffold us a C rhs) =
      .error (.usage "E_INVALID_POPULATES", findPopulateScaffold us a C rhs) :=
    populateOne_sort_conflict e us true a (findPopulateScaffold us a C rhs) rhs C
      (by simp [findPopulateScaffold, qGet]) hrF hrU rfl homit hsel hsort
  exact forgeSteps_of_populates_error e ["criteria", "populates"] "find" us true M
    (findPopulateScaffold us a crit0 rhs) (findPopulateScaffold us a C rhs) _ hcs
    (populatesStep_single_error e ["criteria", "populates"] us true
      (findPopulateScaffold us a C rhs) a rhs _ (by decide) rfl hpo)

/-- A normalized criteria sorting on `mom` (Mongo-style direction value),
as a conforming normalizer could produce it. -/
def sortNormalizedCriteria : JVal :=
  .obj [("where", .obj []), ("limit", .num 9007199254740991), ("skip", .num 0),
        ("sort", .arr [.obj [("mom", .str "ASC")]]), ("select", .arr [.str "*"]),
        ("omit", .arr [])]

/-- The example ontology with a criteria normalizer that yields a primary
sort on `mom`. -/
def exOrmSort : Externals :=
  { exOrm with normalizeCriteria := fun _ _ _ => .ok sortNormalizedCriteria }

/-- Concrete instance of C6: populating `mom` while the normalized primary
criteria sorts on `mom` fails with `E_INVALID_POPULATES`. -/
theorem claim6_populate_sort_witness :
    forgeStageTwoQuery exOrmSort (findPopulateScaffold "user" "mom" (.obj []) (.bool true)) =
      .error (.usage "E_INVALID_POPULATES",
        findPopulateScaffold "user" "mom" sortNormalizedCriteria (.bool true)) :=
  claim6_populate_sort_conflict exOrmSort "user" "mom" (.obj []) (.bool true)
    sortNormalizedCriteria ⟨"id"⟩ (by decide) rfl rfl rfl rfl rfl (by decide) (by decide)
    (by decide)

/-! ## C4: singular ("model") associations -/

/-- C4: for a `find` query populating a singular ("model") association
with no conflicting `omit`/`sort` and the wildcard `select`: a right-hand
side of `true` or `{}` succeeds and the stored value in `query.populates`
is exactly `true`; any other right-hand side (apart from `false`/undefined,
which mean "not populated" and strip the key) fails with the typed usage
error `E_INVALID_POPULATES`. -/
theorem claim4_singular_populate (e : Externals) (us a : String) (rhs C : JVal)
    (M : ModelDef) (ad : AttrDef)
    (hus : ¬ us = "") (hmod : e.getModel us = .ok M)
    (hnc : e.normalizeCriteria (.obj []) us true = .ok C)
    (homit : (C.get "omit").containsStr a = false)
    (hsel : (C.get "select").index0.isStrVal "*" = true)
    (hsort : ((C.get "sort").arrL).any (fun d => d.firstKey = some a) = false)
    (hattr : e.getAttribute a us = .ok ad)
    (hmodel : sTruthy ad.model = true) :
    ((rhs = .bool true ∨ rhs = .obj []) →
      forgeStageTwoQuery e (findPopulateScaffold us a (.obj []) rhs) =
        .ok (findPopulateScaffold us a C (.bool true))) ∧
    (rhs.jsEq (.bool true) = false → rhs.isEmptyObj = false →
     rhs.jsEq (.bool false) = false → rhs.isUndef = false →
      forgeStageTwoQuery e (findPopulateScaffold us a (.obj []) rhs) =
        .error (.usage "E_INVALID_POPULATES", findPopulateScaffold us a C rhs)) := by
  constructor
  · rintro (h | h) <;> subst h
    · -- rhs = `true`: kept as is
      rw [forge_dispatch e (findPopulateScaffold us a (.obj []) (.bool true)) us "find"
          ["criteria", "populates"] M rfl rfl hus hmod rfl (by decide) rfl rfl,
        show ((qGet (findPopulateScaffold us a (.obj []) (.bool true)) "meta").isUndef
          || !(((qGet (findPopulateScaffold us a (.obj []) (.bool true)) "meta").get
            "typeSafety").isStrVal "")) = true from rfl]
      have hcs : criteriaStep e ["criteria", "populates"] "find" us true
          (findPopulateScaffold us a (.obj []) (.bool true)) =
          .ok (findPopulateScaffold us a C (.bool true)) := by
        rw [criteriaStep_ok_compat e ["criteria", "populates"] "find" us true
          (findPopulateScaffold us a (.obj []) (.bool true)) (.obj []) C (by decide) rfl rfl
          (by decide) (by decide) hnc]
        simp [findPopulateScaffold, qSet]
      have hpo : populateOne e us true a (findPopulateScaffold us a C (.bool true)) =
          .ok (findPopulateScaffold us a C (.bool true)) :=
        (populateOne_singular e us true a (findPopulateScaffold us a C (.bool true))
          (.bool true) C ad (by simp [findPopulateScaffold, qGet]) rfl rfl rfl homit hsel
          hsort hattr hmodel).2.1 rfl rfl
      exact forgeSteps_find_ok e "find" us true M
        (findPopulateScaffold us a (.obj []) (.bool true))
        (findPopulateScaffold us a C (.bool true)) _ hcs
        (populatesStep_single_ok e ["criteria", "populates"] us true
          (findPopulateScaffold us a C (.bool true)) a (.bool true) _ (by decide) rfl hpo)
    · -- rhs = `{}`: stored as `true`
      rw [forge_dispatch e (findPopulateScaffold us a (.obj []) (.obj [])) us "find"
          ["criteria", "populates"] M rfl rfl hus hmod rfl (by decide) rfl rfl,
        show ((qGet (findPopulateScaffold us a (.obj []) (.obj [])) "meta").isUndef
          || !(((qGet (findPopulateScaffold us a (.obj []) (.obj [])) "meta").get
            "typeSafety").isStrVal "")) = true from rfl]
      have hcs : criteriaStep e ["criteria", "populates"] "find" us true
          (findPopulateScaffold us a (.obj []) (.obj [])) =
          .ok (findPopulateScaffold us a C (.obj [])) := by
        rw [criteriaStep_ok_compat e ["criteria", "populates"] "find" us true
          (findPopulateScaffold us a (.obj []) (.obj [])) (.obj []) C (by decide) rfl rfl
          (by decide) (by decide) hnc]
        simp [findPopulateScaffold, qSet]
      have hpo : populateOne e us true a (findPopulateScaffold us a C (.obj [])) =
          .ok (findPopulateScaffold us a C (.bool true)) := by
        rw [(populateOne_singular e us true a (findPopulateScaffold us a C (.obj []))
          (.obj []) C ad (by simp [findPopulateScaffold, qGet]) rfl rfl rfl homit hsel
          hsort hattr hmodel).1 rfl]
        simp [findPopulateScaffold, qSet, qGet, JVal.objSet]
      exact forgeSteps_find_ok e "find" us true M
        (findPopulateScaffold us a (.obj []) (.obj []))
        (findPopulateScaffold us a C (.obj [])) _ hcs
        (populatesStep_single_ok e ["criteria", "populates"] us true
          (findPopulateScaffold us a C (.obj [])) a (.obj []) _ (by decide) rfl hpo)
  · intro hT hE hF hU
    rw [forge_dispatch e (findPopulateScaffold us a (.obj []) rhs) us "find"
        ["criteria", "populates"] M rfl rfl hus hmod rfl (by decide) rfl rfl,
      show ((qGet (findPopulateScaffold us a (.obj []) rhs) "meta").isUndef
        || !(((qGet (findPopulateScaffold us a (.obj []) rhs) "meta").get
          "typeSafety").isStrVal "")) = true from rfl]
    have hcs : criteriaStep e ["criteria", "populates"] "find" us true
        (findPopulateScaffold us a (.obj []) rhs) =
        .ok (findPopulateScaffold us a C rhs) := by
      rw [criteriaStep_ok_compat e ["criteria", "populates"] "find" us true
        (findPopulateScaffold us a (.obj []) rhs) (.obj []) C (by decide) rfl rfl
        (by decide) (by decide) hnc]
      simp [findPopulateScaffold, qSet]
    have hpo : populateOne e us true a (findPopulateScaffold us a C rhs) =
        .error (.usage "E_INVALID_POPULATES", findPopulateScaffold us a C rhs) :=
      (populateOne_singular e us true a (findPopulateScaffold us a C rhs)
        rhs C ad (by simp [findPopulateScaffold, qGet]) hF hU rfl homit hsel
        hsort hattr hmodel).2.2 hE hT
    exact forgeSteps_of_populates_error e ["criteria", "populates"] "find" us true M
      (findPopulateScaffold us a (.obj []) rhs) (findPopulateScaffold us a C rhs) _ hcs
      (populatesStep_single_error e ["criteria", "populates"] us true
        (findPopulateScaffold us a C rhs) a rhs _ (by decide) rfl hpo)

/-- Concrete instance of C4: populating the singular association `mom`
with `{}` stores `true`; populating it with the subcriteria-like value `5`
fails with `E_INVALID_POPULATES`. -/
theorem claim4_singular_populate_witness :
    forgeStageTwoQuery exOrm (findPopulateScaffold "user" "mom" (.obj []) (.obj [])) =
      .ok (findPopulateScaffold "user" "mom" defaultNormalizedCriteria (.bool true)) ∧
    forgeStageTwoQuery exOrm (findPopulateScaffold "user" "mom" (.obj []) (.num 5)) =
      .error (.usage "E_INVALID_POPULATES",
        findPopulateScaffold "user" "mom" defaultNormalizedCriteria (.num 5)) :=
  ⟨(claim4_singular_populate exOrm "user" "mom" (.obj []) defaultNormalizedCriteria
      ⟨"id"⟩ ⟨none, some "user", none⟩ (by decide) rfl rfl (by decide) (by decide)
      (by decide) rfl rfl).1 (Or.inr rfl),
   (claim4_singular_populate exOrm "user" "mom" (.num 5) defaultNormalizedCriteria
      ⟨"id"⟩ ⟨none, some "user", none⟩ (by decide) rfl rfl (by decide) (by decide)
      (by decide) rfl rfl).2 rfl rfl rfl rfl⟩

/-! ## The join integrator

The integrator (`integrate`) sequences three join primitives.  The
primitives themselves (`leftOuterJoin`, `innerJoin`, `populate`) are
required from sibling modules that are not part of the provided sources,
so they are modelled from the spec (§4.2). -/

/-- The string JS uses when a primitive value becomes a property /
`_.groupBy` key (`String(v)`). -/
def keyString (v : JVal) : String :=
  match v with
  | .str s => s
  | .num n => toString n
  | .bool b => if b then "true" else "false"
  | .null => "null"
  | .undef => "undefined"
  | _ => ""

/-- Modelled from the spec: the row combination used by the join helpers
when pairing a left row with a matching right row — the left row's fields
in order, overridden by the right row's values, with the right row's
fresh fields appended. -/
def mergeRow (l r : JVal) : JVal :=
  match l, r with
  | .obj lf, .obj rf => .obj (rf.foldl (fun acc p => JVal.setF acc p.1 p.2) lf)
  | _, _ => r

/-- Modelled from the spec: the repository's `leftOuterJoin` helper
(required as `./leftOuterJoin`, absent from `src/`).  "For every left row,
attach all matching right rows under the join key, or none (representing
NULL-side) if no match; preserves left-row order; does not deduplicate
right matches." -/
def leftOuterJoin (left right : List JVal) (leftKey rightKey : String) : List JVal :=
  left.flatMap (fun l =>
    let ms := right.filter (fun r => (r.get rightKey).jsEq (l.get leftKey))
    if ms.isEmpty then [l] else ms.map (fun r => mergeRow l r))

/-- Modelled from the spec: the repository's `innerJoin` helper (required
as `./innerJoin`, absent from `src/`).  "Only rows from `left` having ≥1
match in `right` are kept, paired with each match (cross-product on the
match set); rows with no match are dropped." -/
def innerJoin (left right : List JVal) (leftKey rightKey : String) : List JVal :=
  left.flatMap (fun l =>
    (right.filter (fun r => (r.get rightKey).jsEq (l.get leftKey))).map
      (fun r => mergeRow l r))

/-- Modelled from the spec: the repository's `populate` helper (required
as `./populate`, absent from `src/`).  "Groups childRows by their
foreign-key value, attaches the matching group to each parent row under
alias, using parentPK to correlate parent identity to the foreign key
value in the joined rows."  `childPK` is accepted but does not take part
in the attachment (its value for one-hop joins is the source's unresolved
`'??????'` placeholder — spec §9). -/
def populate (parentRows : List JVal) (als : String) (childRows : List JVal)
    (parentPK : String) (childPK : String) (fkToChild : String) : List JVal :=
  parentRows.map (fun p =>
    p.objSet als
      (.arr (childRows.filter (fun c => (c.get fkToChild).jsEq (p.get parentPK)))))

/-- The keys of `_.groupBy`, in order of first occurrence (worker with the
set of keys already seen). -/
def firstOccurrencesAux (seen : List String) : List String → List String
  | [] => []
  | k :: ks =>
    if seen.contains k then firstOccurrencesAux seen ks
    else k :: firstOccurrencesAux (seen ++ [k]) ks

/-- The keys of `_.groupBy`, in order of first occurrence. -/
def firstOccurrences (l : List String) : List String := firstOccurrencesAux [] l

/-- `_.groupBy(joinInstructions, 'alias')`, as an ordered list of
(alias, instruction group) pairs. -/
def groupByAlias (is : List JVal) : List (String × List JVal) :=
  (firstOccurrences (is.map (fun i => keyString (i.get "alias")))).map
    (fun k => (k, is.filter (fun i => keyString (i.get "alias") = k)))

/-- The body of the `_.each` over the alias groups: two instructions build
the junction composition, one instruction builds the direct inner join,
and any other group size leaves the results untouched. -/
def integrateGroup (cache : JVal) (als : String) (g : List JVal)
    (results : List JVal) : List JVal :=
  match g with
  | [i0, i1] =>
    populate results als
      (innerJoin
        (leftOuterJoin ((cache.get (keyString (i0.get "parent"))).arrL)
          ((cache.get (keyString (i0.get "child"))).arrL)
          (keyString (i0.get "parentKey")) (keyString (i0.get "childKey")))
        ((cache.get (keyString (i1.get "child"))).arrL)
        (keyString (i1.get "parentKey")) (keyString (i1.get "childKey")))
      (keyString (i0.get "parentKey")) (keyString (i1.get "childKey"))
      (keyString (i1.get "parentKey"))
  | [i0] =>
    populate results als
      (innerJoin ((cache.get (keyString (i0.get "parent"))).arrL)
        ((cache.get (keyString (i0.get "child"))).arrL)
        (keyString (i0.get "parentKey")) (keyString (i0.get "childKey")))
      (keyString (i0.get "parentKey")) "??????" (keyString (i0.get "childKey"))
  | _ => results

/-- Modelled from the spec: the `anchor`-based usage validation at the top
of `integrate` (the `anchor` validator itself is an external dependency) —
"the cache is a dictionary, the instruction list is a non-empty array of
dictionaries, the first instruction names a `parent` table present in the
cache as an array". -/
def integrateInputsValid (cache instrs : JVal) : Bool :=
  cache.isDict && instrs.isArr && (instrs.index0).isDict &&
    (instrs.index0.get "parent").isStr &&
    (cache.get (keyString (instrs.index0.get "parent"))).isArr

/-- The observable outcome of a call to `integrate`: a thrown exception, an
error value delivered through the callback, or a success delivered through
the callback. -/
inductive IntegrateOutcome where
  | threw : IntegrateOutcome
  | cbErr : IntegrateOutcome
  | cbOk : List JVal → IntegrateOutcome
deriving Repr

/-- `integrate(cache, joinInstructions, cb)`: validate the inputs (any
violation is passed to the callback as an error value when the callback is
callable, and calling a non-callable callback throws), read the root
result set from the cache under the first instruction's `parent`, compute
`Object.keys(cache[parent][0])` (which throws a TypeError when the parent
row set is empty or its first row is null/undefined), then process the
instruction groups by alias and deliver the results through the
callback. -/
def integrate (cache instrs cb : JVal) : IntegrateOutcome :=
  if ¬ (integrateInputsValid cache instrs && cb.isFn) then
    (if cb.isFn then .cbErr else .threw)
  else
    let parent := keyString (instrs.index0.get "parent")
    let results := (cache.get parent).arrL
    match results.head? with
    | none => .threw
    | some r0 =>
      if r0.jsEq .null || r0.isUndef then .threw
      else
        .cbOk ((groupByAlias instrs.arrL).foldl
          (fun res g => integrateGroup cache g.1 g.2 res) results)

/-! ## A concrete junction (many-to-many) scenario -/

/-- One user, a junction table with one row linking user 1 to pet 1 and
one row linking the nonexistent user 99 to pet 2, and two pets. -/
def jCache : JVal := .obj [
  ("user", .arr [.obj [("id", .num 1)]]),
  ("user_pets", .arr [.obj [("user_id", .num 1), ("pet_id", .num 1)],
                      .obj [("user_id", .num 99), ("pet_id", .num 2)]]),
  ("pet", .arr [.obj [("id", .num 1), ("name", .str "rex")],
                .obj [("id", .num 2), ("name", .str "phantom")]])]

/-- First hop: user → junction. -/
def jI0 : JVal := .obj [("parent", .str "user"), ("child", .str "user_pets"),
  ("parentKey", .str "id"), ("childKey", .str "user_id"), ("alias", .str "pets")]

/-- Second hop: junction → pet. -/
def jI1 : JVal := .obj [("parent", .str "user_pets"), ("child", .str "pet"),
  ("parentKey", .str "pet_id"), ("childKey", .str "id"), ("alias", .str "pets")]

/-- The nested result for the junction scenario: user 1 is populated with
the fully-joined row for pet `rex`; pet `phantom`, linked only through the
junction row whose `user_id` (99) matches no user, appears nowhere. -/
def jExpected : List JVal := [.obj [("id", .num 1),
  ("pets", .arr [.obj [("id", .num 1), ("user_id", .num 1), ("pet_id", .num 1),
                       ("name", .str "rex")]])]]

/-! ## C8: the two-instruction (junction) composition -/

/-- C8: for an instruction list forming a single two-instruction alias
group, the rows attached under the alias are exactly `populate` applied to
`innerJoin(leftOuterJoin(cache[parent0], cache[child0], parentKey0,
childKey0), cache[child1], parentKey1, childKey1)` with
`parentPK = parentKey0`, `childPK = childKey1` and `fkToChild =
parentKey1`; and in the concrete junction scenario the pet linked only
through a junction row matching no user (`phantom`) appears in no
populated array, while the pet reachable through both hops does. -/
theorem claim8_junction_composition :
    (∀ (cache i0 i1 cb : JVal) (a : String) (r0 : JVal) (rows : List JVal),
      integrateInputsValid cache (.arr [i0, i1]) = true →
      cb.isFn = true →
      keyString (i0.get "alias") = a → keyString (i1.get "alias") = a →
      (cache.get (keyString (i0.get "parent"))).arrL = r0 :: rows →
      r0.jsEq .null = false → r0.isUndef = false →
      integrate cache (.arr [i0, i1]) cb = .cbOk
        (populate (r0 :: rows) a
          (innerJoin
            (leftOuterJoin ((cache.get (keyString (i0.get "parent"))).arrL)
              ((cache.get (keyString (i0.get "child"))).arrL)
              (keyString (i0.get "parentKey")) (keyString (i0.get "childKey")))
            ((cache.get (keyString (i1.get "child"))).arrL)
            (keyString (i1.get "parentKey")) (keyString (i1.get "childKey")))
          (keyString (i0.get "parentKey")) (keyString (i1.get "childKey"))
          (keyString (i1.get "parentKey")))) ∧
    integrate jCache (.arr [jI0, jI1]) (.func 0) = .cbOk jExpected := by
  constructor
  · intro cache i0 i1 cb a r0 rows hv hfn ha0 ha1 hrows hr0 hr0u
    unfold integrate
    simp [hv, hfn, hrows, hr0, hr0u, groupByAlias, firstOccurrences, firstOccurrencesAux,
      integrateGroup, ha0, ha1, List.contains, List.elem]
  · rfl

/-- Concrete instance of the C8 composition on the junction scenario. -/
theorem claim8_junction_witness :
    integrate jCache (.arr [jI0, jI1]) (.func 0) = .cbOk
      (populate [.obj [("id", .num 1)]] "pets"
        (innerJoin
          (leftOuterJoin [.obj [("id", .num 1)]] ((jCache.get "user_pets").arrL)
            "id" "user_id")
          ((jCache.get "pet").arrL) "pet_id" "id")
        "id" "id" "pet_id") :=
  claim8_junction_composition.1 jCache jI0 jI1 (.func 0) "pets" (.obj [("id", .num 1)]) []
    rfl rfl rfl rfl rfl rfl rfl

/-! ## C7: the integrator reports through the callback -/

/-- C7 (amended): with a callable callback, every validation failure is
reported as an error value through the callback (nothing is thrown), and on
valid input whose root row set is non-empty (with a first row that is not
null/undefined, since `Object.keys(cache[parent][0])` would throw) the
callback receives the results. -/
theorem claim7_integrate_callback_channel (cache instrs cb : JVal)
    (hfn : cb.isFn = true) :
    (integrateInputsValid cache instrs = false → integrate cache instrs cb = .cbErr) ∧
    (∀ (r0 : JVal) (rows : List JVal),
      integrateInputsValid cache instrs = true →
      (cache.get (keyString (instrs.index0.get "parent"))).arrL = r0 :: rows →
      r0.jsEq .null = false → r0.isUndef = false →
      ∃ out, integrate cache instrs cb = .cbOk out) := by
  constructor
  · intro hv
    unfold integrate
    simp [hv, hfn]
  · intro r0 rows hv hrows hr0 hr0u
    refine ⟨(groupByAlias instrs.arrL).foldl
      (fun res g => integrateGroup cache g.1 g.2 res) (r0 :: rows), ?_⟩
    unfold integrate
    simp [hv, hfn, hrows, hr0, hr0u]

/-- Concrete instance of C7: an invalid cache is reported through the
callback, and a valid junction query completes through the callback. -/
theorem claim7_integrate_witness :
    integrate (.num 7) (.arr []) (.func 0) = .cbErr ∧
    (∃ out, integrate jCache (.arr [jI0, jI1]) (.func 1) = .cbOk out) :=
  ⟨(claim7_integrate_callback_channel (.num 7) (.arr []) (.func 0) rfl).1 rfl,
   (claim7_integrate_callback_channel jCache (.arr [jI0, jI1]) (.func 1) rfl).2
     (.obj [("id", .num 1)]) [] rfl rfl rfl rfl⟩

/-- An otherwise-valid cache whose root row set is empty. -/
def jCacheEmptyParent : JVal :=
  .obj [("user", .arr []), ("user_pets", .arr []), ("pet", .arr [])]

/-- C7 as stated is false: `integrate` does throw — calling it with a
non-callable callback throws (the error path invokes `cb(invalid)`), and
even with a callable callback a valid cache whose root row set is empty
throws (`Object.keys(cache[parent][0])` on `undefined`). -/
theorem claim7_cex_integrate_throws :
    integrate jCache (.arr [jI0, jI1]) (.num 42) = .threw ∧
    integrate jCacheEmptyParent (.arr [jI0, jI1]) (.func 0) = .threw :=
  ⟨rfl, rfl⟩

/-! ## C10: alias groups of three or more instructions -/

/-- C10: an alias group whose size is neither one nor two attaches nothing
(the group step is the identity on the result rows), and `integrate` still
completes successfully through its callback on any valid input. -/
theorem claim10_large_alias_groups_noop :
    (∀ (cache : JVal) (a : String) (g : List JVal) (res : List JVal),
      ¬ g.length = 1 → ¬ g.length = 2 → integrateGroup cache a g res = res) ∧
    (∀ (cache instrs cb : JVal) (r0 : JVal) (rows : List JVal),
      integrateInputsValid cache instrs = true → cb.isFn = true →
      (cache.get (keyString (instrs.index0.get "parent"))).arrL = r0 :: rows →
      r0.jsEq .null = false → r0.isUndef = false →
      ∃ out, integrate cache instrs cb = .cbOk out) := by
  constructor
  · intro cache a g res h1 h2
    rcases g with _ | ⟨i0, _ | ⟨i1, _ | ⟨i2, t⟩⟩⟩
    · rfl
    · exact absurd rfl h1
    · exact absurd rfl h2
    · rfl
  · intro cache instrs cb r0 rows hv hfn hrows hr0 hr0u
    refine ⟨(groupByAlias instrs.arrL).foldl
      (fun res g => integrateGroup cache g.1 g.2 res) (r0 :: rows), ?_⟩
    unfold integrate
    simp [hv, hfn, hrows, hr0, hr0u]

/-- Concrete instance of C10: a three-instruction alias group leaves the
root row untouched and the surrounding `integrate` call still succeeds. -/
theorem claim10_large_alias_groups_witness :
    integrateGroup jCache "pets" [jI0, jI0, jI1] [.obj [("id", .num 1)]] =
      [.obj [("id", .num 1)]] ∧
    (∃ out, integrate jCache (.arr [jI0, jI0, jI1]) (.func 0) = .cbOk out) :=
  ⟨claim10_large_alias_groups_noop.1 jCache "pets" [jI0, jI0, jI1]
     [.obj [("id", .num 1)]] (by decide) (by decide),
   claim10_large_alias_groups_noop.2 jCache (.arr [jI0, jI0, jI1]) (.func 0)
     (.obj [("id", .num 1)]) [] rfl rfl rfl rfl rfl⟩

/-! ## C9: reference identity of the delivered result (heap refinement)

The pure `integrate` above cannot express JS reference equality, so the
claim about array identity is settled against a refinement with an
explicit heap of arrays. -/

/-- A join instruction (`{parent, child, parentKey, childKey, alias}`);
the alias field is named `als`. -/
structure JoinInstr where
  parent : String
  child : String
  parentKey : String
  childKey : String
  als : String

/-- A heap of row arrays; an array reference is an index into the heap. -/
abbrev RowHeap := List (List JVal)

/-- The alias-group step at the heap level: the same join compositions as
`integrateGroup`, with table row sets resolved through `arrOf`. -/
def integrateGroupH (arrOf : String → List JVal) (als : String) (g : List JoinInstr)
    (results : List JVal) : List JVal :=
  match g with
  | [i0, i1] =>
    populate results als
      (innerJoin
        (leftOuterJoin (arrOf i0.parent) (arrOf i0.child) i0.parentKey i0.childKey)
        (arrOf i1.child) i1.parentKey i1.childKey)
      i0.parentKey i1.childKey i1.parentKey
  | [i0] =>
    populate results als
      (innerJoin (arrOf i0.parent) (arrOf i0.child) i0.parentKey i0.childKey)
      i0.parentKey "??????" i0.childKey
  | _ => results

/-- Modelled from the spec (§4.3): the integrator over an explicit heap of
row arrays, making the JS array identity of the source observable — the
cache maps table names to array references, the root array is rewritten in
place at its reference, and that same reference is what the completion
callback receives.  (The `populate` helper, whose in-place attachment this
refines, is the part of the repository absent from `src/`.) -/
def integrateH (h : RowHeap) (cache : List (String × Nat)) (instrs : List JoinInstr) :
    RowHeap × Option Nat :=
  match instrs with
  | [] => (h, none)
  | i0 :: _ =>
    match cache.find? (fun p => p.1 = i0.parent) with
    | none => (h, none)
    | some pr =>
      match h.get? pr.2 with
      | none => (h, none)
      | some rows =>
        let arrOf := fun (name : String) =>
          match cache.find? (fun p => p.1 = name) with
          | some p => (h.get? p.2).getD []
          | none => []
        let newRows := (firstOccurrences (instrs.map (fun i => i.als))).foldl
          (fun res a => integrateGroupH arrOf a (instrs.filter (fun i => i.als = a)) res)
          rows
        (h.set pr.2 newRows, some pr.2)

theorem populate_length (ps : List JVal) (als : String) (cs : List JVal)
    (ppk cpk fk : String) : (populate ps als cs ppk cpk fk).length = ps.length := by
  simp [populate]

theorem integrateGroupH_length (f : String → List JVal) (als : String)
    (g : List JoinInstr) (res : List JVal) :
    (integrateGroupH f als g res).length = res.length := by
  rcases g with _ | ⟨i0, _ | ⟨i1, _ | ⟨i2, t⟩⟩⟩ <;>
    simp [integrateGroupH, populate_length]

theorem foldl_groupsH_length (f : String → List JVal) (instrs : List JoinInstr)
    (gl : List String) (res : List JVal) :
    (gl.foldl
      (fun res a => integrateGroupH f a (instrs.filter (fun i => i.als = a)) res)
      res).length = res.length := by
  induction gl generalizing res with
  | nil => rfl
  | cons a t ih => rw [List.foldl_cons, ih, integrateGroupH_length]

theorem objSet_get_other (p : JVal) (a k : String) (x : JVal) (h : ¬ k = a) :
    (p.objSet a x).get k = p.get k := by
  cases p <;> simp [JVal.objSet, h]

/-- The field `k` of row `j` of a row list, when both exist. -/
def rowField (l : List JVal) (j : Nat) (k : String) : Option JVal :=
  (l[j]?).map (fun v => v.get k)

theorem populate_get_other (ps : List JVal) (als : String) (cs : List JVal)
    (ppk cpk fk k : String) (h : ¬ k = als) (j : Nat) :
    rowField (populate ps als cs ppk cpk fk) j k = rowField ps j k := by
  unfold rowField populate
  rw [List.getElem?_map]
  cases hj : ps[j]? with
  | none => rfl
  | some p => simp [objSet_get_other _ _ _ _ h]

theorem integrateGroupH_get_other (f : String → List JVal) (als : String)
    (g : List JoinInstr) (res : List JVal) (k : String) (j : Nat) (h : ¬ k = als) :
    rowField (integrateGroupH f als g res) j k = rowField res j k := by
  rcases g with _ | ⟨i0, _ | ⟨i1, _ | ⟨i2, t⟩⟩⟩
  · rfl
  · simp only [integrateGroupH]
    exact populate_get_other _ _ _ _ _ _ _ h j
  · simp only [integrateGroupH]
    exact populate_get_other _ _ _ _ _ _ _ h j
  · rfl

theorem foldl_groupsH_get_other (f : String → List JVal) (instrs : List JoinInstr)
    (gl : List String) (res : List JVal) (k : String) (j : Nat)
    (h : ∀ a ∈ gl, ¬ k = a) :
    rowField (gl.foldl
        (fun res a => integrateGroupH f a (instrs.filter (fun i => i.als = a)) res)
        res) j k
      = rowField res j k := by
  induction gl generalizing res with
  | nil => rfl
  | cons a t ih =>
    rw [List.foldl_cons, ih _ (fun b hb => h b (List.mem_cons_of_mem a hb))]
    exact integrateGroupH_get_other f a _ res k j (h a (List.mem_cons_self a t))

theorem mem_firstOccurrencesAux (l : List String) : ∀ (seen : List String) (a : String),
    a ∈ firstOccurrencesAux seen l → a ∈ l := by
  induction l with
  | nil => intro seen a h; simpa [firstOccurrencesAux] using h
  | cons k ks ih =>
    intro seen a h
    by_cases hc : k ∈ seen
    · simp [firstOccurrencesAux, hc] at h
      exact List.mem_cons_of_mem _ (ih _ _ h)
    · simp [firstOccurrencesAux, hc] at h
      rcases h with h | h
      · exact h ▸ List.mem_cons_self _ _
      · exact List.mem_cons_of_mem _ (ih _ _ h)

/-- C9: on success, the heap-level integrator delivers through its
completion channel the very reference that the cache stores for the first
instruction's `parent` table (not a copy), the heap keeps the same arrays
(none added, none removed, every other array untouched), and the root
array is rewritten in place: same row count, with every row field outside
the populated aliases unchanged. -/
theorem claim9_in_place_mutation (h : RowHeap) (cache : List (String × Nat))
    (i0 : JoinInstr) (rest : List JoinInstr) (r : Nat) (rows : List JVal)
    (hfind : cache.find? (fun p => p.1 = i0.parent) = some (i0.parent, r))
    (hrows : h.get? r = some rows) :
    ∃ newRows : List JVal,
      integrateH h cache (i0 :: rest) = (h.set r newRows, some r) ∧
      (h.set r newRows).length = h.length ∧
      (∀ j, ¬ j = r → (h.set r newRows).get? j = h.get? j) ∧
      newRows.length = rows.length ∧
      (∀ k, (∀ i ∈ i0 :: rest, ¬ k = i.als) → ∀ j,
        rowField newRows j k = rowField rows j k) := by
  refine ⟨(firstOccurrences ((i0 :: rest).map (fun i => i.als))).foldl
      (fun res a =>
        integrateGroupH
          (fun name =>
            match cache.find? (fun p => p.1 = name) with
            | some p => (h.get? p.2).getD []
            | none => [])
          a ((i0 :: rest).filter (fun i => i.als = a)) res)
      rows, ?_, ?_, ?_, ?_, ?_⟩
  · simp only [integrateH, hfind, hrows]
  · exact List.length_set h r _
  · intro j hj
    exact List.get?_set_ne _ _ (fun hh => hj hh.symm)
  · exact foldl_groupsH_length _ _ _ _
  · intro k hk j
    refine foldl_groupsH_get_other _ _ _ _ _ _ (fun a ha => ?_)
    have : a ∈ (i0 :: rest).map (fun i => i.als) :=
      mem_firstOccurrencesAux _ _ _ ha
    obtain ⟨i, hi, rfl⟩ := List.mem_map.mp this
    exact hk i hi

/-- Concrete instance of C9: a one-hop populate over the heap delivers
reference 0 (the `user` array's reference), updates it in place, and
leaves the other arrays untouched. -/
theorem claim9_in_place_mutation_witness :
    ∃ newRows : List JVal,
      integrateH [[JVal.obj [("id", .num 1)]], [JVal.obj [("userId", .num 1)]]]
          [("user", 0), ("pet", 1)]
          [⟨"user", "pet", "id", "userId", "pets"⟩] =
        ([[JVal.obj [("id", .num 1)]], [JVal.obj [("userId", .num 1)]]].set 0 newRows,
          some 0) ∧
      newRows.length = 1 := by
  obtain ⟨nr, h1, _, _, h4, _⟩ := claim9_in_place_mutation
    [[JVal.obj [("id", .num 1)]], [JVal.obj [("userId", .num 1)]]]
    [("user", 0), ("pet", 1)] ⟨"user", "pet", "id", "userId", "pets"⟩ [] 0
    [JVal.obj [("id", .num 1)]] rfl rfl
  exact ⟨nr, h1, by rw [h4]; rfl⟩

end Waterline
